import Mathlib

/-!
Verification of the cowork desktop supervisor, a shallow embedding of the
Rust sources `apps/desktop/src-tauri/src/sidecar.rs`,
`apps/desktop/src-tauri/src/commands/credentials.rs` and
`apps/desktop/src-tauri/src/commands/service.rs`.

Pure computations are transcribed directly from the Rust source.  Behaviour
of external libraries is modelled by explicit parameters with their
documented contracts: serde_json text parsing and vault (de)serialization
appear as codec parameters, AES-256-GCM as a cipher parameter with its
round-trip contract, the Rust standard library Unicode `trim`/`to_lowercase`
of an arbitrary username as a function parameter (where a concrete result is
needed the ASCII case table, on which Rust and this model agree, is used),
and OS randomness (the AES nonce) as a numeric argument.  Stateful code
(the transport multiplexer) is embedded as explicit state passing over a
`TransportState` record; channel enqueue success and the awaited response
are inputs of the corresponding step functions.
-/

set_option maxHeartbeats 1000000

/-- JSON values: model of `serde_json::Value`.  Objects are association
lists; numbers are restricted to integers, which covers every number the
supervisor itself constructs (`_retryAttempt`). -/
inductive Json where
  | null
  | bool (b : Bool)
  | num (n : Int)
  | str (s : String)
  | arr (elems : List Json)
  | obj (fields : List (String × Json))

/-- First-match lookup in a JSON object, the map-lookup of `serde_json::Map`. -/
def lookupField : List (String × Json) → String → Option Json
  | [], _ => none
  | (k, v) :: rest, key => if k == key then some v else lookupField rest key

/-- Insert of `serde_json::Map`: replace the value of an existing key,
otherwise add the pair. -/
def insertField : List (String × Json) → String → Json → List (String × Json)
  | [], key, v => [(key, v)]
  | (k, w) :: rest, key, v =>
      if k == key then (key, v) :: rest else (k, w) :: insertField rest key v

/-- Lookup of a key in a JSON value; `none` on non-objects. -/
def Json.lookupKey : Json → String → Option Json
  | Json.obj fields, key => lookupField fields key
  | _, _ => none

/-- ASCII lower-casing of one character, the case table on which Rust
`str::to_lowercase` and this model agree. -/
def asciiLower (c : Char) : Char :=
  if 'A' ≤ c && c ≤ 'Z' then Char.ofNat (c.toNat + 32) else c

/-- Model of Rust `str::to_lowercase` (character-wise; agrees with Rust on
ASCII input, which covers every recognized value and search pattern the
supervisor compares against). -/
def toLowercase (s : String) : String := String.mk (s.data.map asciiLower)

def isAsciiWhitespaceChar (c : Char) : Bool :=
  c == ' ' || c == '\t' || c == '\n' || c == '\r'

/-- Model of Rust `str::trim` (ASCII whitespace, on which Rust and this
model agree). -/
def strTrim (s : String) : String :=
  String.mk (((s.data.dropWhile isAsciiWhitespaceChar).reverse.dropWhile
    isAsciiWhitespaceChar).reverse)

/-- Does `needle` occur at the head of `hay`? -/
def listStarts : List Char → List Char → Bool
  | [], _ => true
  | _ :: _, [] => false
  | a :: ta, b :: tb => a == b && listStarts ta tb

/-- Does `needle` occur anywhere in the list? -/
def listHas (needle : List Char) : List Char → Bool
  | [] => listStarts needle []
  | c :: rest => listStarts needle (c :: rest) || listHas needle rest

/-- Model of Rust `str::contains` for a string pattern. -/
def strContains (hay pat : String) : Bool := listHas pat.data hay.data

namespace Credentials

/-- The two credential back-ends of `commands/credentials.rs`. -/
inductive CredentialBackend where
  | VaultOnly
  | KeychainWithFallback
  deriving DecidableEq

/-- Transcribed from `credential_backend` in `commands/credentials.rs`
(lines 44-57).  `env` is the value of `COWORK_CREDENTIAL_BACKEND`
(`none` = unset). -/
def credential_backend (env : Option String) : CredentialBackend :=
  match env with
  | some value =>
      let normalized := toLowercase (strTrim value)
      if normalized == "keychain" || normalized == "keychain_with_encrypted_fallback" then
        CredentialBackend.KeychainWithFallback
      else
        CredentialBackend.VaultOnly
  | none => CredentialBackend.VaultOnly

/-- The `credentials` map of `EncryptedCredentialStore`: key (a
`service.account` string) to base64 blob. -/
abbrev Store := List (String × String)

/-- HashMap lookup on the store. -/
def storeGet : Store → String → Option String
  | [], _ => none
  | (k, v) :: rest, key => if k == key then some v else storeGet rest key

/-- HashMap insert on the store (replace an existing key). -/
def storeInsert : Store → String → String → Store
  | [], key, v => [(key, v)]
  | (k, w) :: rest, key, v =>
      if k == key then (key, v) :: rest else (k, w) :: storeInsert rest key v

/-- HashMap remove on the store. -/
def storeRemove (s : Store) (key : String) : Store :=
  s.filter (fun p => p.1 != key)

/-- The AES-256-GCM layer of `encrypt_secret` / `decrypt_secret`, an external
library modelled by its contract: `encrypt` takes the OS-random nonce as a
numeric argument, `decrypt` may fail. -/
structure Cipher where
  encrypt : Nat → String → String
  decrypt : String → Except String String

/-- The serde_json layer of `read_encrypted_store` / `write_encrypted_store`,
an external library modelled by its contract over an abstract file-content
type `F` (a byte string in the implementation). -/
structure VaultCodec (F : Type) where
  decode : F → Except String Store
  encode : Store → F

/-- Transcribed from `read_encrypted_store` (lines 158-168): a missing vault
file reads as the default empty store. -/
def read_encrypted_store {F : Type} (codec : VaultCodec F) (file : Option F) :
    Except String Store :=
  match file with
  | none => Except.ok []
  | some content => codec.decode content

/-- Transcribed from `fallback_key` (lines 179-181). -/
def fallback_key (service account : String) : String := service ++ "." ++ account

/-- Transcribed from `fallback_get_secret` (lines 183-190).  The `error`
branches are the `?` error propagation of the Rust source. -/
def fallback_get_secret {F : Type} (codec : VaultCodec F) (cipher : Cipher)
    (file : Option F) (service account : String) : Except String (Option String) :=
  match read_encrypted_store codec file with
  | Except.error e => Except.error e
  | Except.ok store =>
      match storeGet store (fallback_key service account) with
      | some encrypted =>
          match cipher.decrypt encrypted with
          | Except.error e => Except.error e
          | Except.ok plain => Except.ok (some plain)
      | none => Except.ok none

/-- Transcribed from `fallback_set_secret` (lines 192-197); returns the new
vault file content written by `write_encrypted_store`. -/
def fallback_set_secret {F : Type} (codec : VaultCodec F) (cipher : Cipher)
    (nonce : Nat) (file : Option F) (service account value : String) :
    Except String (Option F) :=
  match read_encrypted_store codec file with
  | Except.error e => Except.error e
  | Except.ok store =>
      Except.ok (some (codec.encode (storeInsert store (fallback_key service account)
        (cipher.encrypt nonce value))))

/-- Transcribed from `fallback_delete_secret` (lines 199-206): the vault file
is rewritten only when the key was present. -/
def fallback_delete_secret {F : Type} (codec : VaultCodec F) (file : Option F)
    (service account : String) : Except String (Option F) :=
  match read_encrypted_store codec file with
  | Except.error e => Except.error e
  | Except.ok store =>
      match storeGet store (fallback_key service account) with
      | some _ =>
          Except.ok (some (codec.encode (storeRemove store
            (fallback_key service account))))
      | none => Except.ok file

end Credentials

namespace Transport

/-- Transcribed from `TransportMode` in `sidecar.rs` (lines 22-27). -/
inductive TransportMode where
  | Disconnected
  | EmbeddedSidecar
  | Daemon
  deriving DecidableEq

/-- Transcribed from `IpcResponse` (lines 41-48). -/
structure IpcResponse where
  id : String
  success : Bool
  result : Option Json
  error : Option String

/-- Transcribed from `SidecarEvent` (lines 51-58); `eventType` is the field
serialized as `type`. -/
structure SidecarEvent where
  eventType : String
  sessionId : Option String
  data : Json

/-- Transcribed from `SidecarMessage` (lines 60-66), the untagged union. -/
inductive SidecarMessage where
  | response (r : IpcResponse)
  | event (e : SidecarEvent)

/-- The mutable state of `SidecarManager` observable by the claims:
`txBound` is `tx.is_some()`, `child` is `process.is_some()`; the pending
table is the list of request ids holding a live one-shot sender. -/
structure TransportState where
  txBound : Bool
  stdinHealthy : Bool
  requestCounter : Nat
  pending : List String
  mode : TransportMode
  daemonAuthToken : Option String
  child : Bool

def DEFAULT_REQUEST_TIMEOUT_SECS : Nat := 300
def DEFAULT_RETRY_ATTEMPTS : Nat := 3
def DEFAULT_RETRY_BACKOFF_MS : Nat := 250

/-- How the one-shot await of `send_command_once` resolved: the 300 s
deadline elapsed, the channel was closed, or a response arrived. -/
inductive AwaitOutcome where
  | timeout
  | channelClosed
  | response (r : IpcResponse)

/-- The response branch of `send_command_once` (lines 516-524). -/
def responseOutcome (r : IpcResponse) : Except String Json :=
  if r.success then Except.ok (r.result.getD Json.null)
  else Except.error (r.error.getD "Unknown error")

/-- Transcribed from `SidecarManager::send_command_once` (lines 454-527).
`enqueueOk` is whether `tx.send` succeeds, `awaited` how the one-shot await
resolves (when it is reached).  Returns the result together with the
post-state.  On the response path the reader thread has already removed the
entry for the id (lines 343-348), modelled by the erase. -/
def send_command_once (st : TransportState) (_command : String) (_params : Json)
    (enqueueOk : Bool) (awaited : AwaitOutcome) : Except String Json × TransportState :=
  if !st.stdinHealthy then
    (Except.error "Transport writer is not healthy - please restart the application", st)
  else
    let counter := st.requestCounter + 1
    let id := "req_" ++ toString counter
    let st1 : TransportState :=
      { st with requestCounter := counter, pending := st.pending ++ [id] }
    if !st1.txBound then
      (Except.error "Transport is not running", st1)
    else if !enqueueOk then
      (Except.error "Failed to send to transport: channel closed", st1)
    else
      match awaited with
      | AwaitOutcome.timeout =>
          (Except.error ("Request timed out after " ++ toString DEFAULT_REQUEST_TIMEOUT_SECS ++ "s"),
           { st1 with pending := st1.pending.erase id })
      | AwaitOutcome.response r =>
          (responseOutcome r, { st1 with pending := st1.pending.erase id })
      | AwaitOutcome.channelClosed =>
          (Except.error "Response channel closed", { st1 with pending := st1.pending.erase id })

/-- Transcribed from `SidecarManager::is_retryable_transport_error`
(lines 529-535). -/
def is_retryable_transport_error (error : String) : Bool :=
  let normalized := toLowercase error
  strContains normalized "timed out" ||
    strContains normalized "failed to send to transport" ||
    strContains normalized "transport is not running" ||
    strContains normalized "response channel closed"

/-- Transcribed from `send_command` (lines 398-452): the per-attempt
envelope.  The idempotency key is computed once before the loop (command
name and microsecond timestamp); here it is the `idempotencyKey` argument. -/
def wireParams (idempotencyKey : String) (attempt : Nat) (params : Json) : Json :=
  match params with
  | Json.obj fields =>
      Json.obj (insertField (insertField fields "_idempotencyKey"
        (Json.str idempotencyKey)) "_retryAttempt" (Json.num attempt))
  | other =>
      Json.obj [("_idempotencyKey", Json.str idempotencyKey),
                ("_retryAttempt", Json.num attempt),
                ("payload", other)]

/-- Observable outcome of one `send_command` call: the returned result, the
number of attempts performed, the backoff sleeps, and the enveloped params
handed to `send_command_once` at each attempt (in order). -/
structure SendRun where
  result : Except String Json
  attemptsMade : Nat
  backoffsMs : List Nat
  wires : List Json

/-- The retry loop of `send_command` (lines 412-449).  `once attempt` is the
outcome `send_command_once` produced at that attempt; the fuel argument
mirrors the `1..=DEFAULT_RETRY_ATTEMPTS` loop bound (the fuel-exhausted arm
is the `Err(last_error)` after the loop, unreachable because the loop
returns at `attempt >= DEFAULT_RETRY_ATTEMPTS`). -/
def sendLoop (idempotencyKey : String) (params : Json)
    (once : Nat → Except String Json) : Nat → Nat → String → SendRun
  | 0, attempt, lastError => ⟨Except.error lastError, attempt - 1, [], []⟩
  | fuel + 1, attempt, _ =>
      let wire := wireParams idempotencyKey attempt params
      match once attempt with
      | Except.ok v => ⟨Except.ok v, attempt, [], [wire]⟩
      | Except.error e =>
          if is_retryable_transport_error e = false ∨ DEFAULT_RETRY_ATTEMPTS ≤ attempt then
            ⟨Except.error e, attempt, [], [wire]⟩
          else
            let rest := sendLoop idempotencyKey params once fuel (attempt + 1) e
            ⟨rest.result, rest.attemptsMade,
             DEFAULT_RETRY_BACKOFF_MS * attempt :: rest.backoffsMs,
             wire :: rest.wires⟩

/-- Transcribed from `SidecarManager::send_command` (lines 398-452). -/
def send_command (idempotencyKey : String) (params : Json)
    (once : Nat → Except String Json) : SendRun :=
  sendLoop idempotencyKey params once DEFAULT_RETRY_ATTEMPTS 1 ""

/-- The synthetic response `stop` sends to every pending waiter
(lines 386-393). -/
def syntheticStopResponse : IpcResponse :=
  { id := "", success := false, result := none, error := some "Transport stopped" }

/-- The tail of `stop` once the kill (if any) succeeded: clear the writer
channel, reset writer health, reset mode, drain the pending table sending
the synthetic response to every pending one-shot (lines 376-395). -/
def stopDrain (st : TransportState) :
    Option String × TransportState × List (String × IpcResponse) :=
  (none,
   { st with txBound := false, stdinHealthy := true,
             mode := TransportMode.Disconnected, daemonAuthToken := none,
             pending := [] },
   st.pending.map (fun id => (id, syntheticStopResponse)))

/-- Transcribed from `SidecarManager::stop` (lines 363-396).  `killOk` is
whether `child.kill()` succeeds when an embedded child is present.  Returns
the error (if any), the post-state, and the list of (pending id, synthetic
response delivered to its one-shot). -/
def stop (st : TransportState) (killOk : Bool) :
    Option String × TransportState × List (String × IpcResponse) :=
  if st.mode = TransportMode.EmbeddedSidecar then
    if st.child && !killOk then
      (some "Failed to kill sidecar: kill failed", { st with child := false }, [])
    else stopDrain { st with child := false }
  else stopDrain st

/-- serde field decode for `String`. -/
def decodeString? : Json → Option String
  | Json.str s => some s
  | _ => none

/-- serde field decode for `bool`. -/
def decodeBool? : Json → Option Bool
  | Json.bool b => some b
  | _ => none

/-- serde field decode for `Option<String>`: a missing or null field is
`None`, a string is `Some`, anything else fails. -/
def decodeOptionalString : Option Json → Option (Option String)
  | none => some none
  | some Json.null => some none
  | some (Json.str s) => some (some s)
  | some _ => none

/-- serde field decode for `Option<serde_json::Value>`: a missing or null
field is `None`, anything else is kept. -/
def decodeOptionalValue : Option Json → Option (Option Json)
  | none => some none
  | some Json.null => some none
  | some v => some (some v)

/-- serde derive for `IpcResponse` (requires `id` and `success`; unknown
fields are ignored). -/
def decodeResponse (j : Json) : Option IpcResponse :=
  match j with
  | Json.obj fields => do
      let idJson ← lookupField fields "id"
      let id ← decodeString? idJson
      let successJson ← lookupField fields "success"
      let success ← decodeBool? successJson
      let result ← decodeOptionalValue (lookupField fields "result")
      let error ← decodeOptionalString (lookupField fields "error")
      some { id := id, success := success, result := result, error := error }
  | _ => none

/-- serde derive for `SidecarEvent` (requires `type` and `data`; `sessionId`
optional; unknown fields are ignored). -/
def decodeEvent (j : Json) : Option SidecarEvent :=
  match j with
  | Json.obj fields => do
      let typeJson ← lookupField fields "type"
      let eventType ← decodeString? typeJson
      let sessionId ← decodeOptionalString (lookupField fields "sessionId")
      let data ← lookupField fields "data"
      some { eventType := eventType, sessionId := sessionId, data := data }
  | _ => none

/-- serde untagged decode of `SidecarMessage` (lines 60-66): the response
variant is tried before the event variant. -/
def decodeSidecarMessage (j : Json) : Option SidecarMessage :=
  match decodeResponse j with
  | some r => some (SidecarMessage.response r)
  | none =>
      match decodeEvent j with
      | some e => some (SidecarMessage.event e)
      | none => none

/-- State of the reader thread visible to the claims: the pending table
(id to one-shot sender handle), whether an event handler is installed, the
responses delivered to one-shots, and the events handed to the handler. -/
structure ReaderState where
  pending : List (String × Nat)
  handlerInstalled : Bool
  resolved : List (Nat × IpcResponse)
  handled : List SidecarEvent

def findSender : List (String × Nat) → String → Option Nat
  | [], _ => none
  | (k, v) :: rest, key => if k == key then some v else findSender rest key

def removeSender (l : List (String × Nat)) (key : String) : List (String × Nat) :=
  l.filter (fun p => p.1 != key)

/-- Transcribed from the reader-thread loop body of `attach_io`
(lines 322-360).  `parse` is serde_json text parsing to a JSON value
(external library); the rest is the structural dispatch of the source. -/
def processLine (parse : String → Option Json) (line : String)
    (st : ReaderState) : ReaderState :=
  if strTrim line == "" then st
  else
    match parse (strTrim line) with
    | none => st
    | some j =>
        match decodeSidecarMessage j with
        | some (SidecarMessage.response r) =>
            match findSender st.pending r.id with
            | some sender =>
                { st with pending := removeSender st.pending r.id,
                          resolved := st.resolved ++ [(sender, r)] }
            | none => st
        | some (SidecarMessage.event e) =>
            if st.handlerInstalled then { st with handled := st.handled ++ [e] }
            else st
        | none => st

end Transport

/-- Rust `char::is_ascii_alphanumeric`. -/
def isAsciiAlphanumericChar (c : Char) : Bool :=
  ('0' ≤ c && c ≤ '9') || ('a' ≤ c && c ≤ 'z') || ('A' ≤ c && c ≤ 'Z')

/-- Two's-complement wrap to 32 bits, the semantics of Rust `i32`
`wrapping_shl` / `wrapping_sub` / `wrapping_add` composition. -/
def wrap32 (x : Int) : Int := (x + 2 ^ 31) % 2 ^ 32 - 2 ^ 31

/-- One step of the username hash of `daemon_tcp_port`:
`hash.wrapping_shl(5).wrapping_sub(hash).wrapping_add(byte)`. -/
def hashStep (hash : Int) (byte : Nat) : Int :=
  wrap32 (wrap32 (wrap32 (hash * 32) - hash) + byte)

/-- The 32-bit string hash of `daemon_tcp_port`, folded over the UTF-8 bytes
(the sanitized username is ASCII, so bytes coincide with character codes). -/
def stringHash32 (chars : List Char) : Int :=
  chars.foldl (fun h c => hashStep h c.toNat) 0

/-- The username the two `daemon_tcp_port` copies read:
`std::env::var("USER").or_else(var("USERNAME")).unwrap_or("user")`. -/
def effectiveUsername (userEnv usernameEnv : Option String) : String :=
  match userEnv with
  | some u => u
  | none =>
      match usernameEnv with
      | some u => u
      | none => "user"

/-- Model of `PathBuf::join` for the non-empty relative components the
supervisor uses, followed by `to_string_lossy` (identity on UTF-8). -/
def pathJoin (parent child : String) : String := parent ++ "/" ++ child

namespace Sidecar

/-- Transcribed from `sanitize_username` in `sidecar.rs` (lines 772-787).
`lowerTrim` models the Rust standard library `raw.trim().to_lowercase()`
(Unicode case mapping, external). -/
def sanitize_username (lowerTrim : String → String) (raw : String) : String :=
  let lowered := lowerTrim raw
  let result := String.mk (lowered.data.map
    (fun ch => if isAsciiAlphanumericChar ch || ch == '_' || ch == '-' then ch else '-'))
  if result == "" then "user" else result

/-- Transcribed from `daemon_tcp_port` in `sidecar.rs` (lines 789-805).
The final `% 2 ^ 16` is the `as u16` cast. -/
def daemon_tcp_port (lowerTrim : String → String)
    (userEnv usernameEnv : Option String) : Nat :=
  let username := effectiveUsername userEnv usernameEnv
  let user := sanitize_username lowerTrim username
  let hash := user.data.foldl (fun h c => hashStep h c.toNat) 0
  let offset := hash.natAbs % 1000
  (39100 + offset) % 2 ^ 16

/-- Transcribed from `resolve_daemon_endpoint` in `sidecar.rs`
(lines 807-817); `isWindows` is `cfg!(windows)`. -/
def resolve_daemon_endpoint (isWindows : Bool) (lowerTrim : String → String)
    (userEnv usernameEnv : Option String) (app_data_dir : String) : String :=
  if isWindows then
    "tcp://127.0.0.1:" ++ toString (daemon_tcp_port lowerTrim userEnv usernameEnv)
  else
    pathJoin (pathJoin app_data_dir "daemon") "agentd.sock"

/-- Transcribed from `resolve_daemon_token_path` in `sidecar.rs`
(lines 819-821). -/
def resolve_daemon_token_path (app_data_dir : String) : String :=
  pathJoin (pathJoin app_data_dir "daemon") "auth.token"

/-- Transcribed from `resolve_daemon_lock_path` in `sidecar.rs`
(lines 823-825). -/
def resolve_daemon_lock_path (app_data_dir : String) : String :=
  pathJoin (pathJoin app_data_dir "daemon") "agentd.lock"

end Sidecar

namespace Service

/-- Transcribed from `sanitize_username` in `commands/service.rs`
(lines 109-125), independently of the `sidecar.rs` copy. -/
def sanitize_username (lowerTrim : String → String) (raw : String) : String :=
  let lowered := lowerTrim raw
  let result := String.mk (lowered.data.map
    (fun ch => if isAsciiAlphanumericChar ch || ch == '_' || ch == '-' then ch else '-'))
  if result == "" then "user" else result

/-- Transcribed from `daemon_tcp_port` in `commands/service.rs`
(lines 127-142); the `u16` addition is the `% 2 ^ 16`. -/
def daemon_tcp_port (lowerTrim : String → String)
    (userEnv usernameEnv : Option String) : Nat :=
  let username := effectiveUsername userEnv usernameEnv
  let user := sanitize_username lowerTrim username
  let hash := user.data.foldl (fun h c => hashStep h c.toNat) 0
  let offset := hash.natAbs % 1000
  (39100 + offset) % 2 ^ 16

/-- Transcribed from `resolve_daemon_endpoint` in `commands/service.rs`
(lines 144-154). -/
def resolve_daemon_endpoint (isWindows : Bool) (lowerTrim : String → String)
    (userEnv usernameEnv : Option String) (app_data_dir : String) : String :=
  if isWindows then
    "tcp://127.0.0.1:" ++ toString (daemon_tcp_port lowerTrim userEnv usernameEnv)
  else
    pathJoin (pathJoin app_data_dir "daemon") "agentd.sock"

/-- Transcribed from `resolve_daemon_token_path` in `commands/service.rs`
(lines 156-158). -/
def resolve_daemon_token_path (app_data_dir : String) : String :=
  pathJoin (pathJoin app_data_dir "daemon") "auth.token"

/-- Transcribed from `resolve_daemon_lock_path` in `commands/service.rs`
(lines 160-162). -/
def resolve_daemon_lock_path (app_data_dir : String) : String :=
  pathJoin (pathJoin app_data_dir "daemon") "agentd.lock"

end Service

/-! Concrete inputs used by the evaluation theorems and witnesses below. -/

/-- A healthy transport state with no writer channel bound (`tx = None`). -/
def c1StateNoTx : Transport.TransportState :=
  { txBound := false, stdinHealthy := true, requestCounter := 0, pending := [],
    mode := Transport.TransportMode.Daemon, daemonAuthToken := none, child := false }

/-- A healthy transport state whose writer channel is bound. -/
def c1StateTx : Transport.TransportState :=
  { txBound := true, stdinHealthy := true, requestCounter := 0, pending := [],
    mode := Transport.TransportMode.Daemon, daemonAuthToken := none, child := false }

/-- A worker response with `success = false` whose error string happens to
contain the retryable pattern `timed out`. -/
def c2Response : Transport.IpcResponse :=
  { id := "req_1", success := false, result := none,
    error := some "operation timed out" }

/-- Attempt outcomes where attempt 1 receives `c2Response` and later
attempts succeed. -/
def c2Once : Nat → Except String Json :=
  fun attempt =>
    if attempt = 1 then Transport.responseOutcome c2Response else Except.ok Json.null

/-- A daemon-mode transport state with two in-flight requests. -/
def c3State : Transport.TransportState :=
  { txBound := true, stdinHealthy := true, requestCounter := 2,
    pending := ["req_1", "req_2"], mode := Transport.TransportMode.Daemon,
    daemonAuthToken := some "tok", child := false }

/-- An empty reader state with no handler installed. -/
def c7State : Transport.ReaderState :=
  { pending := [("req_1", 0)], handlerInstalled := false, resolved := [], handled := [] }

/-- A JSON object carrying `id`, `success` and also a `type` and `data`
field, so it matches both message shapes. -/
def c7Ambiguous : Json :=
  Json.obj [("id", Json.str "req_1"), ("success", Json.bool true),
            ("type", Json.str "status"), ("data", Json.null)]

/-- The identity vault codec over `Store` itself, a codec satisfying the
serde_json round-trip contract. -/
def idCodec : Credentials.VaultCodec Credentials.Store :=
  { decode := Except.ok, encode := fun s => s }

/-- The identity cipher, a cipher satisfying the AEAD round-trip contract. -/
def idCipher : Credentials.Cipher :=
  { encrypt := fun _ x => x, decrypt := Except.ok }

/-! Association-list map lemmas for the JSON object model. -/

theorem lookupField_insertField_self (l : List (String × Json)) (k : String) (v : Json) :
    lookupField (insertField l k v) k = some v := by
  induction l with
  | nil => simp [insertField, lookupField]
  | cons p t ih =>
      obtain ⟨a, b⟩ := p
      by_cases ha : (a == k) = true
      · simp [insertField, ha, lookupField]
      · have ha2 : (a == k) = false := by simpa using ha
        simp [insertField, ha2, lookupField, ih]

theorem lookupField_insertField_ne (l : List (String × Json)) (key k : String) (v : Json)
    (h : (key == k) = false) :
    lookupField (insertField l key v) k = lookupField l k := by
  induction l with
  | nil => simp [insertField, lookupField, h]
  | cons p t ih =>
      obtain ⟨a, b⟩ := p
      by_cases ha : (a == key) = true
      · have haeq : a = key := eq_of_beq ha
        subst haeq
        simp [insertField, lookupField, h]
      · have ha2 : (a == key) = false := by simpa using ha
        simp [insertField, ha2, lookupField, ih]

theorem insertField_append_of_not_mem (l : List (String × Json)) (key : String) (v : Json)
    (h : key ∉ l.map Prod.fst) :
    insertField l key v = l ++ [(key, v)] := by
  induction l with
  | nil => rfl
  | cons p t ih =>
      obtain ⟨a, b⟩ := p
      rw [List.map_cons, List.mem_cons] at h
      push_neg at h
      obtain ⟨h1, h2⟩ := h
      have ha : (a == key) = false := beq_eq_false_iff_ne.mpr (Ne.symm h1)
      simp [insertField, ha, ih h2]

namespace Credentials

theorem storeGet_storeInsert_self (s : Store) (k v : String) :
    storeGet (storeInsert s k v) k = some v := by
  induction s with
  | nil => simp [storeInsert, storeGet]
  | cons p t ih =>
      obtain ⟨a, b⟩ := p
      by_cases ha : (a == k) = true
      · simp [storeInsert, ha, storeGet]
      · have ha2 : (a == k) = false := by simpa using ha
        simp [storeInsert, ha2, storeGet, ih]

theorem storeGet_storeRemove_self (s : Store) (key : String) :
    storeGet (storeRemove s key) key = none := by
  induction s with
  | nil => rfl
  | cons p t ih =>
      obtain ⟨a, b⟩ := p
      by_cases ha : (a == key) = true
      · have hb : ((a, b).1 != key) = false := by simp [bne, ha]
        simpa [storeRemove, List.filter_cons, hb] using ih
      · have ha2 : (a == key) = false := by simpa using ha
        have hb : ((a, b).1 != key) = true := by simp [bne, ha2]
        simpa [storeRemove, List.filter_cons, hb, storeGet, ha2] using ih

end Credentials

namespace Transport

/-! Unfolding characterization of the retry loop of `send_command`. -/

theorem sendLoop_succ (idk : String) (p : Json) (once : Nat → Except String Json)
    (fuel attempt : Nat) (lastError : String) :
    sendLoop idk p once (fuel + 1) attempt lastError =
      (match once attempt with
      | Except.ok v => ⟨Except.ok v, attempt, [], [wireParams idk attempt p]⟩
      | Except.error e =>
          if is_retryable_transport_error e = false ∨ DEFAULT_RETRY_ATTEMPTS ≤ attempt then
            ⟨Except.error e, attempt, [], [wireParams idk attempt p]⟩
          else
            ⟨(sendLoop idk p once fuel (attempt + 1) e).result,
             (sendLoop idk p once fuel (attempt + 1) e).attemptsMade,
             DEFAULT_RETRY_BACKOFF_MS * attempt
               :: (sendLoop idk p once fuel (attempt + 1) e).backoffsMs,
             wireParams idk attempt p :: (sendLoop idk p once fuel (attempt + 1) e).wires⟩) :=
  rfl

theorem send_command_spec (idk : String) (p : Json) (f : Nat → Except String Json) :
    1 ≤ (send_command idk p f).attemptsMade ∧
    (send_command idk p f).attemptsMade ≤ 3 ∧
    (send_command idk p f).wires
      = (List.range (send_command idk p f).attemptsMade).map
          (fun i => wireParams idk (i + 1) p) ∧
    (send_command idk p f).backoffsMs
      = (List.range ((send_command idk p f).attemptsMade - 1)).map
          (fun i => DEFAULT_RETRY_BACKOFF_MS * (i + 1)) ∧
    (send_command idk p f).result = f (send_command idk p f).attemptsMade ∧
    (∀ i, 1 ≤ i → i < (send_command idk p f).attemptsMade →
      ∃ e, f i = Except.error e ∧ is_retryable_transport_error e = true) ∧
    (∀ e, f 1 = Except.error e → is_retryable_transport_error e = false →
      send_command idk p f = ⟨Except.error e, 1, [], [wireParams idk 1 p]⟩) ∧
    (∀ e, f 1 = Except.error e → is_retryable_transport_error e = true →
      2 ≤ (send_command idk p f).attemptsMade) := by
  cases h1 : f 1 with
  | ok v1 =>
      have hrun : send_command idk p f = ⟨Except.ok v1, 1, [], [wireParams idk 1 p]⟩ := by
        show sendLoop idk p f (2 + 1) 1 "" = _
        rw [sendLoop_succ, h1]
      rw [hrun]
      refine ⟨Nat.le_refl 1, (by decide : (1:Nat) ≤ 3), rfl, rfl, h1.symm, ?_, ?_, ?_⟩
      · intro i hi1 hi2
        have hi3 : i < 1 := hi2
        exact absurd hi3 (Nat.not_lt.mpr hi1)
      · intro e he hre
        exact Except.noConfusion he
      · intro e he hre
        exact Except.noConfusion he
  | error e1 =>
      cases hr1 : is_retryable_transport_error e1 with
      | false =>
          have hrun : send_command idk p f
              = ⟨Except.error e1, 1, [], [wireParams idk 1 p]⟩ := by
            show sendLoop idk p f (2 + 1) 1 "" = _
            rw [sendLoop_succ, h1]
            simp [hr1]
          rw [hrun]
          refine ⟨Nat.le_refl 1, (by decide : (1:Nat) ≤ 3), rfl, rfl, h1.symm, ?_, ?_, ?_⟩
          · intro i hi1 hi2
            have hi3 : i < 1 := hi2
            exact absurd hi3 (Nat.not_lt.mpr hi1)
          · intro e he hre
            injection he with hee
            subst hee
            rfl
          · intro e he hre
            injection he with hee
            subst hee
            rw [hr1] at hre
            exact Bool.noConfusion hre
      | true =>
          have hstep : send_command idk p f =
              ⟨(sendLoop idk p f 2 2 e1).result, (sendLoop idk p f 2 2 e1).attemptsMade,
               DEFAULT_RETRY_BACKOFF_MS * 1 :: (sendLoop idk p f 2 2 e1).backoffsMs,
               wireParams idk 1 p :: (sendLoop idk p f 2 2 e1).wires⟩ := by
            show sendLoop idk p f (2 + 1) 1 "" = _
            rw [sendLoop_succ, h1]
            simp [hr1, DEFAULT_RETRY_ATTEMPTS]
          cases h2 : f 2 with
          | ok v2 =>
              have h2run : sendLoop idk p f 2 2 e1
                  = ⟨Except.ok v2, 2, [], [wireParams idk 2 p]⟩ := by
                show sendLoop idk p f (1 + 1) 2 e1 = _
                rw [sendLoop_succ, h2]
              have hrun : send_command idk p f
                  = ⟨Except.ok v2, 2, [DEFAULT_RETRY_BACKOFF_MS * 1],
                     [wireParams idk 1 p, wireParams idk 2 p]⟩ := by
                rw [hstep, h2run]
              rw [hrun]
              refine ⟨(by decide : (1:Nat) ≤ 2), (by decide : (2:Nat) ≤ 3), rfl, rfl,
                h2.symm, ?_, ?_, ?_⟩
              · intro i hi1 hi2
                have hi3 : i < 2 := hi2
                have hieq : i = 1 := by omega
                subst hieq
                exact ⟨e1, h1, hr1⟩
              · intro e he hre
                injection he with hee
                subst hee
                rw [hr1] at hre
                exact Bool.noConfusion hre
              · intro e he hre
                exact Nat.le_refl 2
          | error e2 =>
              cases hr2 : is_retryable_transport_error e2 with
              | false =>
                  have h2run : sendLoop idk p f 2 2 e1
                      = ⟨Except.error e2, 2, [], [wireParams idk 2 p]⟩ := by
                    show sendLoop idk p f (1 + 1) 2 e1 = _
                    rw [sendLoop_succ, h2]
                    simp [hr2]
                  have hrun : send_command idk p f
                      = ⟨Except.error e2, 2, [DEFAULT_RETRY_BACKOFF_MS * 1],
                         [wireParams idk 1 p, wireParams idk 2 p]⟩ := by
                    rw [hstep, h2run]
                  rw [hrun]
                  refine ⟨(by decide : (1:Nat) ≤ 2), (by decide : (2:Nat) ≤ 3), rfl, rfl,
                    h2.symm, ?_, ?_, ?_⟩
                  · intro i hi1 hi2
                    have hi3 : i < 2 := hi2
                    have hieq : i = 1 := by omega
                    subst hieq
                    exact ⟨e1, h1, hr1⟩
                  · intro e he hre
                    injection he with hee
                    subst hee
                    rw [hr1] at hre
                    exact Bool.noConfusion hre
                  · intro e he hre
                    exact Nat.le_refl 2
              | true =>
                  have h2step : sendLoop idk p f 2 2 e1 =
                      ⟨(sendLoop idk p f 1 3 e2).result,
                       (sendLoop idk p f 1 3 e2).attemptsMade,
                       DEFAULT_RETRY_BACKOFF_MS * 2 :: (sendLoop idk p f 1 3 e2).backoffsMs,
                       wireParams idk 2 p :: (sendLoop idk p f 1 3 e2).wires⟩ := by
                    show sendLoop idk p f (1 + 1) 2 e1 = _
                    rw [sendLoop_succ, h2]
                    simp [hr2, DEFAULT_RETRY_ATTEMPTS]
                  cases h3 : f 3 with
                  | ok v3 =>
                      have h3run : sendLoop idk p f 1 3 e2
                          = ⟨Except.ok v3, 3, [], [wireParams idk 3 p]⟩ := by
                        show sendLoop idk p f (0 + 1) 3 e2 = _
                        rw [sendLoop_succ, h3]
                      have hrun : send_command idk p f
                          = ⟨Except.ok v3, 3,
                             [DEFAULT_RETRY_BACKOFF_MS * 1, DEFAULT_RETRY_BACKOFF_MS * 2],
                             [wireParams idk 1 p, wireParams idk 2 p, wireParams idk 3 p]⟩ := by
                        rw [hstep, h2step, h3run]
                      rw [hrun]
                      refine ⟨(by decide : (1:Nat) ≤ 3), Nat.le_refl 3, rfl, rfl,
                        h3.symm, ?_, ?_, ?_⟩
                      · intro i hi1 hi2
                        have hi3 : i < 3 := hi2
                        have hieq : i = 1 ∨ i = 2 := by omega
                        rcases hieq with h | h
                        · subst h; exact ⟨e1, h1, hr1⟩
                        · subst h; exact ⟨e2, h2, hr2⟩
                      · intro e he hre
                        injection he with hee
                        subst hee
                        rw [hr1] at hre
                        exact Bool.noConfusion hre
                      · intro e he hre
                        exact (by decide : (2:Nat) ≤ 3)
                  | error e3 =>
                      have h3run : sendLoop idk p f 1 3 e2
                          = ⟨Except.error e3, 3, [], [wireParams idk 3 p]⟩ := by
                        show sendLoop idk p f (0 + 1) 3 e2 = _
                        rw [sendLoop_succ, h3]
                        simp [DEFAULT_RETRY_ATTEMPTS]
                      have hrun : send_command idk p f
                          = ⟨Except.error e3, 3,
                             [DEFAULT_RETRY_BACKOFF_MS * 1, DEFAULT_RETRY_BACKOFF_MS * 2],
                             [wireParams idk 1 p, wireParams idk 2 p, wireParams idk 3 p]⟩ := by
                        rw [hstep, h2step, h3run]
                      rw [hrun]
                      refine ⟨(by decide : (1:Nat) ≤ 3), Nat.le_refl 3, rfl, rfl,
                        h3.symm, ?_, ?_, ?_⟩
                      · intro i hi1 hi2
                        have hi3 : i < 3 := hi2
                        have hieq : i = 1 ∨ i = 2 := by omega
                        rcases hieq with h | h
                        · subst h; exact ⟨e1, h1, hr1⟩
                        · subst h; exact ⟨e2, h2, hr2⟩
                      · intro e he hre
                        injection he with hee
                        subst hee
                        rw [hr1] at hre
                        exact Bool.noConfusion hre
                      · intro e he hre
                        exact (by decide : (2:Nat) ≤ 3)

theorem lookupKey_wireParams_idem (idk : String) (a : Nat) (p : Json) :
    Json.lookupKey (wireParams idk a p) "_idempotencyKey" = some (Json.str idk) := by
  cases p with
  | obj fields =>
      show lookupField (insertField (insertField fields "_idempotencyKey" (Json.str idk))
        "_retryAttempt" (Json.num a)) "_idempotencyKey" = some (Json.str idk)
      rw [lookupField_insertField_ne _ _ _ _ (by decide)]
      exact lookupField_insertField_self _ _ _
  | null => rfl
  | bool b => rfl
  | num n => rfl
  | str s => rfl
  | arr l => rfl

theorem lookupKey_wireParams_retry (idk : String) (a : Nat) (p : Json) :
    Json.lookupKey (wireParams idk a p) "_retryAttempt" = some (Json.num a) := by
  cases p with
  | obj fields =>
      exact lookupField_insertField_self _ _ _
  | null => rfl
  | bool b => rfl
  | num n => rfl
  | str s => rfl
  | arr l => rfl

theorem stopDrain_spec (st : TransportState) (st2 : TransportState)
    (completed : List (String × IpcResponse))
    (h : stopDrain st = (none, st2, completed)) :
    st2.pending = [] ∧
    st2.mode = TransportMode.Disconnected ∧
    completed.map Prod.fst = st.pending ∧
    ∀ c ∈ completed, c.2.success = false ∧ c.2.error = some "Transport stopped" := by
  unfold stopDrain at h
  injection h with h1 h23
  injection h23 with h2 h3
  subst h2
  subst h3
  refine ⟨rfl, rfl, ?_, ?_⟩
  · generalize st.pending = l
    induction l with
    | nil => rfl
    | cons a t ih => simp [ih]
  · intro c hc
    rw [List.mem_map] at hc
    obtain ⟨idv, hid, hc2⟩ := hc
    subst hc2
    exact ⟨rfl, rfl⟩

end Transport

/-! The claim theorems. -/

/-- C1: evaluation of `send_command_once` at the failing inputs.  When no
writer channel is bound the call returns the `Transport is not running`
error, and when the enqueue into the channel fails it returns the
`Failed to send to transport` error — but in both cases the pending-table
entry inserted for the freshly allocated request id `req_1` is still in the
pending table after the call returns, contrary to the claim (and to the
spec) that it is removed before the error is returned. -/
theorem send_command_once_keeps_pending_on_enqueue_failure :
    ((Transport.send_command_once c1StateNoTx "ping" Json.null true
        Transport.AwaitOutcome.timeout).1
      = Except.error "Transport is not running" ∧
     (Transport.send_command_once c1StateNoTx "ping" Json.null true
        Transport.AwaitOutcome.timeout).2.pending = ["req_1"]) ∧
    ((Transport.send_command_once c1StateTx "ping" Json.null false
        Transport.AwaitOutcome.timeout).1
      = Except.error "Failed to send to transport: channel closed" ∧
     (Transport.send_command_once c1StateTx "ping" Json.null false
        Transport.AwaitOutcome.timeout).2.pending = ["req_1"]) :=
  ⟨⟨rfl, rfl⟩, ⟨rfl, rfl⟩⟩

/-- C2 counterexample: a worker response with `success = false` whose error
string contains `timed out` is retried — `send_command` performs a second
attempt (with a 250 ms backoff) instead of returning the worker error
immediately, because retryability is decided purely by matching the error
string. -/
theorem send_command_retries_worker_error :
    c2Response.success = false ∧
    c2Once 1 = Transport.responseOutcome c2Response ∧
    Transport.responseOutcome c2Response = Except.error "operation timed out" ∧
    (Transport.send_command "ping-1" Json.null c2Once).attemptsMade = 2 ∧
    (Transport.send_command "ping-1" Json.null c2Once).backoffsMs
      = [Transport.DEFAULT_RETRY_BACKOFF_MS * 1] ∧
    (Transport.send_command "ping-1" Json.null c2Once).result = Except.ok Json.null :=
  ⟨rfl, rfl, rfl, rfl, rfl, rfl⟩

/-- C2 (amended): a worker response with `success = false` yields its error
string as the attempt outcome; a failed attempt is returned immediately
without retry iff its message does not match one of the four retryable
patterns (the decision is by message content, not by origin); at most 3
attempts are made, with backoff 250 ms times the attempt number. -/
theorem send_command_retry_policy (idk : String) (p : Json)
    (f : Nat → Except String Json) (r : Transport.IpcResponse) (e : String) :
    (r.success = false →
      Transport.responseOutcome r = Except.error (r.error.getD "Unknown error")) ∧
    (f 1 = Except.error e → Transport.is_retryable_transport_error e = false →
      Transport.send_command idk p f
        = ⟨Except.error e, 1, [], [Transport.wireParams idk 1 p]⟩) ∧
    (Transport.send_command idk p f).attemptsMade ≤ 3 ∧
    (Transport.send_command idk p f).backoffsMs
      = (List.range ((Transport.send_command idk p f).attemptsMade - 1)).map
          (fun i => Transport.DEFAULT_RETRY_BACKOFF_MS * (i + 1)) ∧
    (f 1 = Except.error e → Transport.is_retryable_transport_error e = true →
      2 ≤ (Transport.send_command idk p f).attemptsMade) := by
  obtain ⟨h1, h2, h3, h4, h5, h6, h7, h8⟩ := Transport.send_command_spec idk p f
  refine ⟨?_, ?_, h2, h4, ?_⟩
  · intro hs
    simp [Transport.responseOutcome, hs]
  · intro he hre
    exact h7 e he hre
  · intro he hre
    exact h8 e he hre

/-- C2 witness: the retry policy applied at concrete inputs. -/
theorem send_command_retry_policy_witness :
    Transport.responseOutcome c2Response = Except.error "operation timed out" ∧
    Transport.send_command "k" Json.null (fun _ => Except.error "bad params")
      = ⟨Except.error "bad params", 1, [], [Transport.wireParams "k" 1 Json.null]⟩ ∧
    2 ≤ (Transport.send_command "k" Json.null
          (fun _ => Except.error "timed out")).attemptsMade := by
  have hA := send_command_retry_policy "k" Json.null
    (fun _ => Except.error "bad params") c2Response "bad params"
  have hB := send_command_retry_policy "k" Json.null
    (fun _ => Except.error "timed out") c2Response "timed out"
  exact ⟨hA.1 rfl, hA.2.1 rfl rfl, hB.2.2.2.2 rfl rfl⟩

/-- C3: when `stop` returns without a kill error, the pending table is
empty, the mode is `Disconnected`, and every request pending at the moment
of the call was completed with the synthetic `success = false` /
`Transport stopped` response. -/
theorem stop_drains_pending (st : Transport.TransportState) (killOk : Bool)
    (st2 : Transport.TransportState)
    (completed : List (String × Transport.IpcResponse))
    (h : Transport.stop st killOk = (none, st2, completed)) :
    st2.pending = [] ∧
    st2.mode = Transport.TransportMode.Disconnected ∧
    completed.map Prod.fst = st.pending ∧
    ∀ c ∈ completed, c.2.success = false ∧ c.2.error = some "Transport stopped" := by
  unfold Transport.stop at h
  by_cases hmode : st.mode = Transport.TransportMode.EmbeddedSidecar
  · rw [if_pos hmode] at h
    by_cases hkill : (st.child && !killOk) = true
    · rw [if_pos hkill] at h
      injection h with h1 h23
      exact Option.noConfusion h1
    · rw [if_neg hkill] at h
      have hd := Transport.stopDrain_spec _ _ _ h
      exact hd
  · rw [if_neg hmode] at h
    exact Transport.stopDrain_spec _ _ _ h

/-- C3 witness: draining a daemon-mode state with two pending requests. -/
theorem stop_drains_pending_witness :
    (Transport.stop c3State true).2.1.pending = [] ∧
    (Transport.stop c3State true).2.1.mode = Transport.TransportMode.Disconnected ∧
    (Transport.stop c3State true).2.2.map Prod.fst = c3State.pending ∧
    ∀ c ∈ (Transport.stop c3State true).2.2,
      c.2.success = false ∧ c.2.error = some "Transport stopped" :=
  stop_drains_pending c3State true _ _ rfl

/-- C4: every attempt envelope of one `send_command` call carries the same
`_idempotencyKey` (the key computed once before the loop) and the
`_retryAttempt` values are exactly 1, 2, ... in order; for object params the
wire params are the original map with the two keys inserted (exactly the two
added keys when the original lacks them), and non-object params are wrapped
as `payload` with the two envelope keys. -/
theorem send_command_envelope (idk : String) (p : Json)
    (f : Nat → Except String Json) (m : List (String × Json)) (a : Nat) :
    (∀ w ∈ (Transport.send_command idk p f).wires,
      Json.lookupKey w "_idempotencyKey" = some (Json.str idk)) ∧
    ((Transport.send_command idk p f).wires.map
        (fun w => Json.lookupKey w "_retryAttempt")
      = (List.range (Transport.send_command idk p f).attemptsMade).map
          (fun i : Nat => some (Json.num (i + 1)))) ∧
    ("_idempotencyKey" ∉ m.map Prod.fst → "_retryAttempt" ∉ m.map Prod.fst →
      Transport.wireParams idk a (Json.obj m)
        = Json.obj (m ++ [("_idempotencyKey", Json.str idk),
                          ("_retryAttempt", Json.num a)])) ∧
    ((∀ l, p ≠ Json.obj l) →
      Transport.wireParams idk a p
        = Json.obj [("_idempotencyKey", Json.str idk),
                    ("_retryAttempt", Json.num a), ("payload", p)]) := by
  obtain ⟨h1, h2, h3, h4, h5, h6, h7, h8⟩ := Transport.send_command_spec idk p f
  refine ⟨?_, ?_, ?_, ?_⟩
  · intro w hw
    rw [h3] at hw
    rw [List.mem_map] at hw
    obtain ⟨i, hi, hw2⟩ := hw
    subst hw2
    exact Transport.lookupKey_wireParams_idem idk (i + 1) p
  · rw [h3, List.map_map]
    refine List.map_congr_left ?_
    intro i hi
    show Json.lookupKey (Transport.wireParams idk (i + 1) p) "_retryAttempt"
        = some (Json.num (i + 1))
    exact Transport.lookupKey_wireParams_retry idk (i + 1) p
  · intro hk1 hk2
    have hmem : "_retryAttempt"
        ∉ (m ++ [("_idempotencyKey", Json.str idk)]).map Prod.fst := by
      rw [List.map_append, List.mem_append]
      rintro (hc | hc)
      · exact hk2 hc
      · simp at hc
    show Json.obj (insertField (insertField m "_idempotencyKey" (Json.str idk))
        "_retryAttempt" (Json.num a)) = _
    rw [insertField_append_of_not_mem m "_idempotencyKey" _ hk1]
    rw [insertField_append_of_not_mem _ "_retryAttempt" _ hmem]
    rw [List.append_assoc]
    rfl
  · intro hobj
    cases p with
    | obj l => exact absurd rfl (hobj l)
    | null => rfl
    | bool b => rfl
    | num n => rfl
    | str s => rfl
    | arr l => rfl

/-- C4 witness: the envelope at concrete inputs. -/
theorem send_command_envelope_witness :
    (∀ w ∈ (Transport.send_command "ping-1" (Json.str "raw")
        (fun _ => Except.ok Json.null)).wires,
      Json.lookupKey w "_idempotencyKey" = some (Json.str "ping-1")) ∧
    Transport.wireParams "ping-1" 1 (Json.obj [("x", Json.num 1)])
      = Json.obj [("x", Json.num 1), ("_idempotencyKey", Json.str "ping-1"),
                  ("_retryAttempt", Json.num 1)] ∧
    Transport.wireParams "ping-1" 1 (Json.str "raw")
      = Json.obj [("_idempotencyKey", Json.str "ping-1"),
                  ("_retryAttempt", Json.num 1), ("payload", Json.str "raw")] := by
  have h := send_command_envelope "ping-1" (Json.str "raw")
    (fun _ => Except.ok Json.null) [("x", Json.num 1)] 1
  exact ⟨h.1, h.2.2.1 (by decide) (by decide),
    h.2.2.2 (fun l hl => Json.noConfusion hl)⟩

/-- C5 counterexample: the value `keychain_with_encrypted_fallback`, which
is not `keychain`, also selects the keychain-with-vault-fallback backend,
refuting the claim that every value other than `keychain` selects
vault-only. -/
theorem credential_backend_alias_counterexample :
    Credentials.credential_backend (some "keychain_with_encrypted_fallback")
        = Credentials.CredentialBackend.KeychainWithFallback ∧
    "keychain_with_encrypted_fallback" ≠ "keychain" :=
  ⟨rfl, by decide⟩

/-- C5 (amended): the backend is keychain-with-vault-fallback exactly when
the trimmed, lower-cased value of `COWORK_CREDENTIAL_BACKEND` is `keychain`
or `keychain_with_encrypted_fallback`; for every other value, and when the
variable is unset, the backend is vault-only. -/
theorem credential_backend_characterization (env : Option String) :
    Credentials.credential_backend env
        = Credentials.CredentialBackend.KeychainWithFallback ↔
      ∃ v, env = some v ∧
        (toLowercase (strTrim v) = "keychain" ∨
         toLowercase (strTrim v) = "keychain_with_encrypted_fallback") := by
  cases env with
  | none => simp [Credentials.credential_backend]
  | some v =>
      simp only [Credentials.credential_backend]
      by_cases h : (toLowercase (strTrim v) == "keychain"
          || toLowercase (strTrim v) == "keychain_with_encrypted_fallback") = true
      · rw [if_pos h]
        rw [Bool.or_eq_true, beq_iff_eq, beq_iff_eq] at h
        exact ⟨fun _ => ⟨v, rfl, h⟩, fun _ => rfl⟩
      · rw [if_neg h]
        rw [Bool.or_eq_true, beq_iff_eq, beq_iff_eq] at h
        constructor
        · intro hk
          exact Credentials.CredentialBackend.noConfusion hk
        · rintro ⟨v2, hv2, hcond⟩
          injection hv2 with hv2e
          subst hv2e
          exact absurd hcond h

/-- C5 witness: the characterization applied to a value that needs both the
trim and the lower-casing. -/
theorem credential_backend_characterization_witness :
    Credentials.credential_backend (some " Keychain ")
        = Credentials.CredentialBackend.KeychainWithFallback :=
  (credential_backend_characterization (some " Keychain ")).mpr
    ⟨" Keychain ", rfl, Or.inl rfl⟩

/-- C6: under the vault-only backend, for non-empty service and account and
a codec and cipher satisfying the external libraries' round-trip contracts,
set-then-get returns the value, set-set-get returns the second value, and
set-delete-get returns none. -/
theorem vault_set_get_delete {F : Type} (codec : Credentials.VaultCodec F)
    (cipher : Credentials.Cipher) (f0 : Option F) (s0 : Credentials.Store)
    (service account v v1 v2 : String) (n n1 n2 : Nat)
    (hcodec : ∀ s, codec.decode (codec.encode s) = Except.ok s)
    (hcipher : ∀ i x, cipher.decrypt (cipher.encrypt i x) = Except.ok x)
    (hread : Credentials.read_encrypted_store codec f0 = Except.ok s0)
    (hs : service ≠ "") (ha : account ≠ "") :
    (∃ g1, Credentials.fallback_set_secret codec cipher n f0 service account v
        = Except.ok g1 ∧
      Credentials.fallback_get_secret codec cipher g1 service account
        = Except.ok (some v)) ∧
    (∃ g1 g2, Credentials.fallback_set_secret codec cipher n1 f0 service account v1
        = Except.ok g1 ∧
      Credentials.fallback_set_secret codec cipher n2 g1 service account v2
        = Except.ok g2 ∧
      Credentials.fallback_get_secret codec cipher g2 service account
        = Except.ok (some v2)) ∧
    (∃ g1 g2, Credentials.fallback_set_secret codec cipher n f0 service account v
        = Except.ok g1 ∧
      Credentials.fallback_delete_secret codec g1 service account = Except.ok g2 ∧
      Credentials.fallback_get_secret codec cipher g2 service account
        = Except.ok none) := by
  refine ⟨⟨some (codec.encode (Credentials.storeInsert s0
      (Credentials.fallback_key service account) (cipher.encrypt n v))), ?_, ?_⟩,
    ⟨some (codec.encode (Credentials.storeInsert s0
      (Credentials.fallback_key service account) (cipher.encrypt n1 v1))),
     some (codec.encode (Credentials.storeInsert
      (Credentials.storeInsert s0 (Credentials.fallback_key service account)
        (cipher.encrypt n1 v1))
      (Credentials.fallback_key service account) (cipher.encrypt n2 v2))), ?_, ?_, ?_⟩,
    ⟨some (codec.encode (Credentials.storeInsert s0
      (Credentials.fallback_key service account) (cipher.encrypt n v))),
     some (codec.encode (Credentials.storeRemove (Credentials.storeInsert s0
      (Credentials.fallback_key service account) (cipher.encrypt n v))
      (Credentials.fallback_key service account))), ?_, ?_, ?_⟩⟩
  · simp only [Credentials.fallback_set_secret, hread]
  · simp only [Credentials.fallback_get_secret, Credentials.read_encrypted_store,
      hcodec, Credentials.storeGet_storeInsert_self, hcipher]
  · simp only [Credentials.fallback_set_secret, hread]
  · simp only [Credentials.fallback_set_secret, Credentials.read_encrypted_store,
      hcodec]
  · simp only [Credentials.fallback_get_secret, Credentials.read_encrypted_store,
      hcodec, Credentials.storeGet_storeInsert_self, hcipher]
  · simp only [Credentials.fallback_set_secret, hread]
  · simp only [Credentials.fallback_delete_secret, Credentials.read_encrypted_store,
      hcodec, Credentials.storeGet_storeInsert_self]
  · simp only [Credentials.fallback_get_secret, Credentials.read_encrypted_store,
      hcodec, Credentials.storeGet_storeRemove_self]

/-- C6 witness: the vault algebra at concrete inputs, with the identity
codec and cipher as the round-trip instances. -/
theorem vault_set_get_delete_witness :
    (∃ g1, Credentials.fallback_set_secret idCodec idCipher 0 none "svc" "acct" "v"
        = Except.ok g1 ∧
      Credentials.fallback_get_secret idCodec idCipher g1 "svc" "acct"
        = Except.ok (some "v")) ∧
    (∃ g1 g2, Credentials.fallback_set_secret idCodec idCipher 0 none "svc" "acct" "v1"
        = Except.ok g1 ∧
      Credentials.fallback_set_secret idCodec idCipher 0 g1 "svc" "acct" "v2"
        = Except.ok g2 ∧
      Credentials.fallback_get_secret idCodec idCipher g2 "svc" "acct"
        = Except.ok (some "v2")) ∧
    (∃ g1 g2, Credentials.fallback_set_secret idCodec idCipher 0 none "svc" "acct" "v"
        = Except.ok g1 ∧
      Credentials.fallback_delete_secret idCodec g1 "svc" "acct" = Except.ok g2 ∧
      Credentials.fallback_get_secret idCodec idCipher g2 "svc" "acct"
        = Except.ok none) :=
  vault_set_get_delete idCodec idCipher none [] "svc" "acct" "v" "v1" "v2" 0 0 0
    (fun s => rfl) (fun i x => rfl) rfl (by decide) (by decide)

/-- C7: a line that does not parse as JSON leaves the reader state (pending
table and handler effects) unchanged; the untagged decoder tries the
response shape before the event shape, so an object carrying `id`, `success`
and also `type` (and `data`) is dispatched as a response; and a JSON value
matching neither shape leaves the state unchanged. -/
theorem reader_decode_dispatch (parse : String → Option Json) (line : String)
    (st : Transport.ReaderState) (j : Json) (r : Transport.IpcResponse)
    (i t : String) (b : Bool) (d : Json) :
    (parse (strTrim line) = none → Transport.processLine parse line st = st) ∧
    (Transport.decodeResponse j = some r →
      Transport.decodeSidecarMessage j = some (Transport.SidecarMessage.response r)) ∧
    (Transport.decodeSidecarMessage (Json.obj [("id", Json.str i),
        ("success", Json.bool b), ("type", Json.str t), ("data", d)])
      = some (Transport.SidecarMessage.response
          { id := i, success := b, result := none, error := none })) ∧
    (Transport.decodeResponse j = none → Transport.decodeEvent j = none →
      parse (strTrim line) = some j → Transport.processLine parse line st = st) := by
  refine ⟨?_, ?_, ?_, ?_⟩
  · intro h
    unfold Transport.processLine
    split
    · rfl
    · rw [h]
  · intro h
    unfold Transport.decodeSidecarMessage
    rw [h]
  · rfl
  · intro h1 h2 h3
    have hmsg : Transport.decodeSidecarMessage j = none := by
      unfold Transport.decodeSidecarMessage
      rw [h1, h2]
    unfold Transport.processLine
    split
    · rfl
    · simp only [h3, hmsg]

/-- C7 witness: the decode dispatch at concrete inputs — a non-JSON line, an
object carrying both shapes, and a JSON number matching neither shape. -/
theorem reader_decode_dispatch_witness :
    Transport.processLine (fun _ => none) "not json" c7State = c7State ∧
    Transport.decodeSidecarMessage c7Ambiguous
      = some (Transport.SidecarMessage.response
          { id := "req_1", success := true, result := none, error := none }) ∧
    Transport.processLine (fun _ => some (Json.num 5)) "5" c7State = c7State := by
  have hA := reader_decode_dispatch (fun _ => none) "not json" c7State Json.null
    { id := "req_1", success := true, result := none, error := none }
    "req_1" "status" true Json.null
  have hB := reader_decode_dispatch (fun _ => some (Json.num 5)) "5" c7State
    (Json.num 5) { id := "req_1", success := true, result := none, error := none }
    "req_1" "status" true Json.null
  exact ⟨hA.1 rfl, hA.2.2.1, hB.2.2.2 rfl rfl rfl⟩

/-- C8: `daemon_tcp_port` returns 39100 plus the absolute value of the
32-bit hash of the sanitized username modulo 1000 (the `u16` cast never
truncates); the port therefore lies in `39100..=40099`, and it depends only
on the effective username. -/
theorem daemon_tcp_port_spec (lowerTrim : String → String)
    (uEnv unEnv uEnv2 unEnv2 : Option String) :
    Sidecar.daemon_tcp_port lowerTrim uEnv unEnv
        = 39100 + (stringHash32 (Sidecar.sanitize_username lowerTrim
            (effectiveUsername uEnv unEnv)).data).natAbs % 1000 ∧
    39100 ≤ Sidecar.daemon_tcp_port lowerTrim uEnv unEnv ∧
    Sidecar.daemon_tcp_port lowerTrim uEnv unEnv ≤ 40099 ∧
    (effectiveUsername uEnv unEnv = effectiveUsername uEnv2 unEnv2 →
      Sidecar.daemon_tcp_port lowerTrim uEnv unEnv
        = Sidecar.daemon_tcp_port lowerTrim uEnv2 unEnv2) := by
  have key : ∀ (a b : Option String),
      Sidecar.daemon_tcp_port lowerTrim a b
        = 39100 + (stringHash32 (Sidecar.sanitize_username lowerTrim
            (effectiveUsername a b)).data).natAbs % 1000 := by
    intro a b
    have hlt : (stringHash32 (Sidecar.sanitize_username lowerTrim
        (effectiveUsername a b)).data).natAbs % 1000 < 1000 :=
      Nat.mod_lt _ (by norm_num)
    exact Nat.mod_eq_of_lt (by omega)
  refine ⟨key uEnv unEnv, ?_, ?_, ?_⟩
  · rw [key uEnv unEnv]
    omega
  · rw [key uEnv unEnv]
    have hlt : (stringHash32 (Sidecar.sanitize_username lowerTrim
        (effectiveUsername uEnv unEnv)).data).natAbs % 1000 < 1000 :=
      Nat.mod_lt _ (by norm_num)
    omega
  · intro h
    rw [key uEnv unEnv, key uEnv2 unEnv2, h]

/-- C8 witness: the port depends only on the effective username. -/
theorem daemon_tcp_port_spec_witness :
    Sidecar.daemon_tcp_port (fun s => s) (some "bob") none
      = Sidecar.daemon_tcp_port (fun s => s) none (some "bob") :=
  (daemon_tcp_port_spec (fun s => s) (some "bob") none none (some "bob")).2.2.2 rfl

/-- C9: the username sanitizer, port derivation, endpoint address, token
path and lock path computed by `sidecar.rs` agree with the independently
transcribed copies in `commands/service.rs` on all inputs. -/
theorem sidecar_service_path_agreement (lowerTrim : String → String)
    (raw : String) (isWindows : Bool) (uEnv unEnv : Option String)
    (app_data_dir : String) :
    Sidecar.sanitize_username lowerTrim raw
      = Service.sanitize_username lowerTrim raw ∧
    Sidecar.daemon_tcp_port lowerTrim uEnv unEnv
      = Service.daemon_tcp_port lowerTrim uEnv unEnv ∧
    Sidecar.resolve_daemon_endpoint isWindows lowerTrim uEnv unEnv app_data_dir
      = Service.resolve_daemon_endpoint isWindows lowerTrim uEnv unEnv app_data_dir ∧
    Sidecar.resolve_daemon_token_path app_data_dir
      = Service.resolve_daemon_token_path app_data_dir ∧
    Sidecar.resolve_daemon_lock_path app_data_dir
      = Service.resolve_daemon_lock_path app_data_dir :=
  ⟨rfl, rfl, rfl, rfl, rfl⟩

/-- C10: deleting a key that is absent from a readable vault store succeeds
and returns the vault file content unchanged (no write is performed). -/
theorem vault_delete_absent_noop {F : Type} (codec : Credentials.VaultCodec F)
    (file : Option F) (store : Credentials.Store) (service account : String)
    (hread : Credentials.read_encrypted_store codec file = Except.ok store)
    (habsent : Credentials.storeGet store
      (Credentials.fallback_key service account) = none) :
    Credentials.fallback_delete_secret codec file service account
      = Except.ok file := by
  simp only [Credentials.fallback_delete_secret, hread, habsent]

/-- C10 witness: deleting an absent key from a one-entry vault file. -/
theorem vault_delete_absent_noop_witness :
    Credentials.fallback_delete_secret idCodec (some [("other.key", "blob")])
      "svc" "acct" = Except.ok (some [("other.key", "blob")]) :=
  vault_delete_absent_noop idCodec (some [("other.key", "blob")])
    [("other.key", "blob")] "svc" "acct" rfl rfl
